import Mathlib

set_option maxRecDepth 4000

/-!
Verification of the record-count comparator (`src/app.py`).

The development shallowly embeds the two core components of the program:

* the report parser `parse_text_to_df` (app.py lines 158-185) together with its
  helpers `extract_tokens_from_line`, `find_table_name`,
  `candidate_numbers_from_parts` and `pick_best_count` (lines 26-155), and
* the reconciliation engine `compare_dfs` (lines 188-221).

Python strings are modelled over their character lists; the regular
expressions of app.py (`_num_re`, `table_label_re`, the word-boundary
blacklist, the raw-line fallback) are implemented as executable scanning
functions with Python's leftmost-match, ordered-alternation, greedy-with-
backtracking semantics.  Python's unicode-aware `str.lower`/`str.upper`/`\w`
are modelled on the ASCII fragment (every input exercised by the theorems is
ASCII).  Python `int()` applied to a string is modelled as an `Option Nat`
parser, and call sites where app.py does not guard the conversion are
threaded through `Except`, so that "the parser raises" is representable.

`pandas` data frames are modelled as lists of rows.  `pd.DataFrame([])`
(the value `parse_text_to_df` returns when no line parsed) has no columns at
all, while a data frame that lost all its rows to filtering still has its
columns; the `hasCols` flag of `ParseDF` records this distinction, because
`compare_dfs` crashes with a `KeyError` when it selects the
`key/TableName/Count` columns from a column-less frame.  `pd.merge(_, _,
on="key", how="outer")` with the default `sort=False` emits one row per key
of the union for unique-key inputs (every frame produced by
`parse_text_to_df` is deduplicated on `key`): the left frame's keys in
order, then the unmatched right keys in order; pandas versions that
lexicographically sort outer-join keys differ only in row order, and every
concrete input evaluated below is chosen so that the two orders coincide.

The app runs on the modern pandas stack (`st.dataframe(...,
use_container_width=True)` needs Streamlit ≥ 1.13, hence pandas ≥ 1.5),
where `Series.where(cond, None)` on a *numeric* column standardizes the
`None` fill to `NaN`: app.py lines 195-196 therefore leave `NaN`, not
`None`, in a `Count` column that holds any integer (dtype `int64` or
`float64`), and only an all-`None` parse (dtype `object`) yields real
`None`s.  `NaN` passes the `is not None` tests of `diff_val`, so
`int(NaN)` raises `ValueError` on any merged row pairing a `NaN` count
with a non-`None` count.  The `countCol` field of `ParseDF` records the
dtype of the parsed `Count` column, `CVal` distinguishes
`None`/`NaN`/number, and `compare_dfs` raises exactly when some merged
row satisfies `diffRaises`.
-/

namespace App

/-- Python whitespace for `str.strip` / `\s` (ASCII fragment). -/
def isPySpace (c : Char) : Bool :=
  c = ' ' || c = '\t' || c = '\n' || c = '\r' || c = '\x0b' || c = '\x0c'

/-- Python `\w` (ASCII fragment): letters, digits, underscore. -/
def isWordChar (c : Char) : Bool :=
  c.isAlphanum || c = '_'

/-- Drop the longest suffix whose characters satisfy `p`. -/
def dropRightWhileL (p : Char → Bool) (cs : List Char) : List Char :=
  (cs.reverse.dropWhile p).reverse

/-- Python `str.strip()` (ASCII whitespace). -/
def pyStrip (s : String) : String :=
  String.mk (dropRightWhileL isPySpace (s.data.dropWhile isPySpace))

/-- Python `str.lower()` (ASCII fragment). -/
def pyLower (s : String) : String :=
  String.mk (s.data.map Char.toLower)

/-- Python `str.upper()` (ASCII fragment). -/
def pyUpper (s : String) : String :=
  String.mk (s.data.map Char.toUpper)

/-- Substring test: Python `needle in hay`. -/
def containsSub (needle : List Char) : List Char → Bool
  | [] => needle.isEmpty
  | c :: rest => needle.isPrefixOf (c :: rest) || containsSub needle rest

/-- Python `str.splitlines()` (handling `\n`, `\r\n`, `\r`; the rarer
unicode line breaks Python also splits on do not occur in the inputs
considered here).  A trailing segment is emitted only when non-empty. -/
def pySplitlinesAux : List Char → List Char → List String
  | [], acc => if acc.isEmpty then [] else [String.mk acc.reverse]
  | '\r' :: '\n' :: rest, acc => String.mk acc.reverse :: pySplitlinesAux rest []
  | '\r' :: rest, acc => String.mk acc.reverse :: pySplitlinesAux rest []
  | '\n' :: rest, acc => String.mk acc.reverse :: pySplitlinesAux rest []
  | c :: rest, acc => pySplitlinesAux rest (c :: acc)

def pySplitlines (s : String) : List String :=
  pySplitlinesAux s.data []

/-- Python `str.split(sep)` for a one-character separator: always at least
one (possibly empty) segment. -/
def splitOnCharAux (sep : Char) : List Char → List Char → List String
  | [], acc => [String.mk acc.reverse]
  | c :: rest, acc =>
    if c = sep then String.mk acc.reverse :: splitOnCharAux sep rest []
    else splitOnCharAux sep rest (c :: acc)

def splitOnChar (sep : Char) (s : String) : List String :=
  splitOnCharAux sep s.data []

/-- Python `int(s)` on the digit strings produced below: `none` models the
`ValueError` that `int` raises on a malformed literal. -/
def parseNatDigits (cs : List Char) : Option Nat :=
  if cs.isEmpty then none
  else if cs.all Char.isDigit then some (cs.foldl (fun acc c => acc * 10 + (c.toNat - '0'.toNat)) 0)
  else none

/-- `raw.replace(',', '')`. -/
def stripCommas (cs : List Char) : List Char :=
  cs.filter (fun c => c != ',')

/-!
The integer regex of app.py line 23:

    _num_re = re.compile(r'(\d{1,3}(?:,\d{3})*|\d+)(?!\.\d)')

Matching at a fixed position follows Python's ordered alternation and greedy
backtracking: the first alternative `\d{1,3}(?:,\d{3})*` tries the longest
digit run (at most 3) and the largest comma-group count first, backing off
until the negative lookahead `(?!\.\d)` succeeds; only if every combination
fails is the second alternative `\d+` tried the same way.
-/

/-- Length of the leading digit run. -/
def digitRun : List Char → Nat
  | c :: rest => if c.isDigit then digitRun rest + 1 else 0
  | [] => 0

/-- Number of leading `,ddd` groups. -/
def commaGroups : List Char → Nat
  | ',' :: a :: b :: c :: rest =>
    if a.isDigit && b.isDigit && c.isDigit then commaGroups rest + 1 else 0
  | _ => 0

/-- The characters of the first `g` leading `,ddd` groups (meaningful when
`g ≤ commaGroups cs`). -/
def takeGroups : Nat → List Char → List Char
  | 0, _ => []
  | g + 1, cs =>
    match cs with
    | ',' :: a :: b :: c :: rest => ',' :: a :: b :: c :: takeGroups g rest
    | _ => []

/-- The negative lookahead `(?!\.\d)` at the position following the match. -/
def lookaheadOK : List Char → Bool
  | '.' :: d :: _ => !d.isDigit
  | _ => true

/-- Backtrack over the group count of `(?:,\d{3})*`, largest first. -/
def tryGroups (after : List Char) : Nat → Option (List Char)
  | 0 => if lookaheadOK after then some [] else none
  | g + 1 =>
    let gtok := takeGroups (g + 1) after
    if lookaheadOK (after.drop gtok.length) then some gtok else tryGroups after g

/-- Backtrack over the digit count of `\d{1,3}`, largest first; the group
part restarts from its maximum for each digit count. -/
def tryAlt1K (cs : List Char) : Nat → Option (List Char)
  | 0 => none
  | k + 1 =>
    let digs := cs.take (k + 1)
    let after := cs.drop (k + 1)
    match tryGroups after (commaGroups after) with
    | some gtok => some (digs ++ gtok)
    | none => tryAlt1K cs k

/-- Backtrack over the digit count of `\d+`, largest first. -/
def tryAlt2 (cs : List Char) : Nat → Option (List Char)
  | 0 => none
  | k + 1 => if lookaheadOK (cs.drop (k + 1)) then some (cs.take (k + 1)) else tryAlt2 cs k

/-- The text matched by `_num_re` anchored at the head of `cs` (group 1 of
the pattern; the lookahead is zero-width so it equals the whole match). -/
def numMatchTok (cs : List Char) : Option (List Char) :=
  let r := digitRun cs
  if r = 0 then none
  else
    match tryAlt1K cs (min 3 r) with
    | some tok => some tok
    | none => tryAlt2 cs r

/-- `_num_re.search`: leftmost match. -/
def numSearchAux : List Char → Option (List Char)
  | [] => none
  | c :: rest =>
    match numMatchTok (c :: rest) with
    | some tok => some tok
    | none => numSearchAux rest

def numSearch (cs : List Char) : Option (List Char) :=
  numSearchAux cs

/-- `_num_re.finditer`: successive non-overlapping leftmost matches, with
their start positions (needed for the ±20-character context scoring). -/
def numFindAllAux : Nat → List Char → Nat → List (Nat × List Char)
  | 0, _, _ => []
  | _ + 1, [], _ => []
  | fuel + 1, c :: rest, pos =>
    match numMatchTok (c :: rest) with
    | some tok => (pos, tok) :: numFindAllAux fuel ((c :: rest).drop tok.length) (pos + tok.length)
    | none => numFindAllAux fuel rest (pos + 1)

def numFindAll (cs : List Char) : List (Nat × List Char) :=
  numFindAllAux (cs.length + 1) cs 0

/-- `_num_re.fullmatch` on a comma-free string: the whole string is one
non-empty digit run (the end-of-string lookahead is vacuous). -/
def fullNumMatch (cs : List Char) : Bool :=
  !cs.isEmpty && cs.all Char.isDigit

/-- `table_label_re = re.compile(r'\bTABLE\b', re.IGNORECASE)`: `TABLE` is a
word, so the boundaries amount to a non-word (or absent) neighbour on each
side. -/
def tableAt (cs : List Char) : Bool :=
  ((cs.take 5).map Char.toLower == ['t', 'a', 'b', 'l', 'e']) &&
    (match cs.drop 5 with
     | [] => true
     | c :: _ => !isWordChar c)

def tableLabelAux : Bool → List Char → Bool
  | _, [] => false
  | prevW, c :: rest => (!prevW && tableAt (c :: rest)) || tableLabelAux (isWordChar c) rest

/-- `table_label_re.search(s)` as a Boolean. -/
def tableLabelSearch (s : String) : Bool :=
  tableLabelAux false s.data

/-- `re.sub(r'^[^\w]+|[^\w]+$', '', s)`: trim non-word characters from both
ends. -/
def stripNonWord (s : String) : String :=
  String.mk (dropRightWhileL (fun c => !isWordChar c) (s.data.dropWhile (fun c => !isWordChar c)))

/-- Does the string contain an ASCII letter (`re.search(r'[A-Za-z]', s)`)? -/
def hasAsciiLetter (s : String) : Bool :=
  s.data.any Char.isAlpha

/-- The header-word blacklist of `find_table_name` (app.py line 62). -/
def blacklistWords : List (List Char) :=
  [['r', 'o', 'w'], ['l', 'e', 'n', 'g', 't', 'h'], ['s', 'i', 'z', 'e'],
   ['m', 'b'], ['b', 'y', 't', 'e', 's'], ['t', 'y', 'p', 'e'],
   ['d', 'e', 's', 'c'], ['d', 'e', 's', 'c', 'r', 'i', 'p', 't', 'i', 'o', 'n'],
   ['c', 'o', 'u', 'n', 't'], ['r', 'e', 'c', 'o', 'r', 'd', 's']]

/-- A word-bounded case-insensitive occurrence of `w` at the head of `cs`. -/
def wordAtCI (w : List Char) (cs : List Char) : Bool :=
  ((cs.take w.length).map Char.toLower == w) &&
    (match cs.drop w.length with
     | [] => true
     | c :: _ => !isWordChar c)

def blacklistAux : Bool → List Char → Bool
  | _, [] => false
  | prevW, c :: rest =>
    (!prevW && blacklistWords.any (fun w => wordAtCI w (c :: rest))) ||
      blacklistAux (isWordChar c) rest

/-- `re.search(r'\b(row|length|size|mb|bytes|type|desc|description|count|records)\b', s, re.IGNORECASE)`. -/
def blacklistSearch (s : String) : Bool :=
  blacklistAux false s.data

/-- `extract_tokens_from_line` (app.py lines 26-31): split on `|`, strip
each field. -/
def extract_tokens_from_line (line : String) : List String :=
  (splitOnChar '|' line).map pyStrip

/-- Step 1 of `find_table_name` (app.py lines 45-54), the inner
`for j in range(i+1, min(i+4, len(parts)))` window: the first field after
the `TABLE` marker that is non-empty and survives punctuation stripping. -/
def step1Window (parts : List String) (i : Nat) : Option String :=
  ((parts.drop (i + 1)).take 3).findSome? fun p =>
    let cand := pyStrip p
    if cand = "" then none
    else
      let clean := stripNonWord cand
      if clean = "" then none else some clean

def findNameStep1 (parts : List String) : Option String :=
  parts.enum.findSome? fun ip =>
    if tableLabelSearch ip.2 then step1Window parts ip.1 else none

/-- Step 2 of `find_table_name` (app.py lines 56-64): first field that looks
like an object token (non-numeric, has a letter, not a structural header
word). -/
def findNameStep2 (parts : List String) : Option String :=
  parts.findSome? fun p =>
    let pc := pyStrip p
    if pc = "" then none
    else if fullNumMatch (stripCommas pc.data) then none
    else if !hasAsciiLetter pc then none
    else if blacklistSearch pc then none
    else some (stripNonWord pc)

/-- Characters of the token class `[A-Za-z0-9_\-\.]` in the step-3 regex. -/
def isStep3TokChar (c : Char) : Bool :=
  c.isAlphanum || c = '_' || c = '-' || c = '.'

/-- Step 3 of `find_table_name` (app.py lines 66-68):
`re.search(r'TABLE\s*\|\s*([A-Za-z0-9_\-\.]+)', line, re.IGNORECASE)`.
`\s*` is greedy but the characters it can yield back are never `|` or token
characters, so the scan is deterministic at each start position. -/
def findNameStep3 : List Char → Option String
  | [] => none
  | c :: rest =>
    (if (List.take 5 (c :: rest)).map Char.toLower == ['t', 'a', 'b', 'l', 'e'] then
      match (List.drop 5 (c :: rest)).dropWhile isPySpace with
      | '|' :: r2 =>
        let tok := (r2.dropWhile isPySpace).takeWhile isStep3TokChar
        if tok.isEmpty then none else some (pyStrip (String.mk tok))
      | _ => none
    else none).orElse fun _ => findNameStep3 rest

/-- `find_table_name` (app.py lines 33-69). -/
def find_table_name (parts : List String) (line : List Char) : Option String :=
  ((findNameStep1 parts).orElse fun _ => findNameStep2 parts).orElse fun _ =>
    findNameStep3 line

/-- One scored numeric candidate of `candidate_numbers_from_parts`. -/
structure NumCand where
  score : Int
  raw : String
  val : Nat
deriving Repr, DecidableEq

/-- `int(math.log10(val + 1) * 2)` (app.py line 101), computed exactly:
`⌊2·log10(v+1)⌋ = ⌊log10((v+1)²)⌋` (the double-precision rounding of
CPython's `math.log10` is not modelled; it agrees on these magnitudes). -/
def magBoost (val : Nat) : Int :=
  Int.ofNat (Nat.log 10 ((val + 1) * (val + 1)))

/-- Case-insensitive prefix test. -/
def ciStartsWith (w : List Char) (cs : List Char) : Bool :=
  (cs.take w.length).map Char.toLower == w.map Char.toLower

/-- An occurrence at the head of `cs` of `\b<raw>\s*(MB|KB|GB)\b`
(app.py line 108; `\b` before `raw` is a left boundary because `raw` starts
with a digit). -/
def sizeUnitAt (raw : List Char) (cs : List Char) : Bool :=
  ciStartsWith raw cs &&
    (match (cs.drop raw.length).dropWhile isPySpace with
     | u :: b :: rest =>
       ([u, b].map Char.toLower == ['m', 'b'] || [u, b].map Char.toLower == ['k', 'b'] ||
         [u, b].map Char.toLower == ['g', 'b']) &&
         (match rest with
          | [] => true
          | d :: _ => !isWordChar d)
     | _ => false)

def sizeUnitAux (raw : List Char) : Bool → List Char → Bool
  | _, [] => false
  | prevW, c :: rest =>
    (!prevW && sizeUnitAt raw (c :: rest)) || sizeUnitAux raw (isWordChar c) rest

/-- `re.search(r'\b' + re.escape(raw) + r'\s*(MB|KB|GB)\b', line, re.IGNORECASE)`. -/
def sizeUnitSearch (raw : List Char) (line : List Char) : Bool :=
  sizeUnitAux raw false line

/-- The context window `line[max(0, start-20):min(len(line), end+20)]`
lowered (app.py line 104); `List.take`/`drop` clamp exactly like a Python
slice. -/
def ctxSlice (line : List Char) (start stop : Nat) : List Char :=
  ((line.take (stop + 20)).drop (start - 20)).map Char.toLower

def recordWords : List (List Char) :=
  [['r', 'e', 'c', 'o', 'r', 'd'], ['c', 'o', 'u', 'n', 't'], ['r', 'o', 'w', 's']]

/-- Score one `finditer` match per app.py lines 85-111. -/
def scoreCand (line : List Char) (pos : Nat) (tok : List Char) (val : Nat) : Int :=
  let commaB : Int := if tok.contains ',' then 20 else 0
  let magB : Int :=
    if val > 1000000000 then -50
    else if val > 0 then magBoost val else 0
  let ctx := ctxSlice line pos (pos + tok.length)
  let ctxB : Int := if recordWords.any (fun w => containsSub w ctx) then 30 else 0
  let unitB : Int := if sizeUnitSearch tok line then -25 else 0
  commaB + magB + ctxB + unitB

/-- Keep, per value, the first-inserted entry unless a strictly higher score
replaces it in place (the `by_val` dict of app.py lines 113-116). -/
def insertByVal : List NumCand → NumCand → List NumCand
  | [], c => [c]
  | d :: rest, c =>
    if d.val = c.val then (if c.score > d.score then c :: rest else d :: rest)
    else d :: insertByVal rest c

def collapseByVal (l : List NumCand) : List NumCand :=
  l.foldl insertByVal []

/-- Stable insertion keeping descending score order (`out.sort(reverse=True,
key=...)` on line 119: Python's sort is stable, so equal scores keep
insertion order). -/
def insertDesc (c : NumCand) : List NumCand → List NumCand
  | [] => [c]
  | d :: rest => if c.score > d.score then c :: d :: rest else d :: insertDesc c rest

def sortByScoreDesc (l : List NumCand) : List NumCand :=
  l.foldl (fun acc c => insertDesc c acc) []

/-- `candidate_numbers_from_parts` (app.py lines 71-120).  The `parts`
parameter is accepted but, as in the source, only the raw line is scanned.
The guarded `int(raw.replace(',', ''))` of lines 87-90 skips a failing
candidate (`except: continue`). -/
def candidate_numbers_from_parts (_parts : List String) (line : List Char) : List NumCand :=
  let cands := (numFindAll line).filterMap fun pt =>
    match parseNatDigits (stripCommas pt.2) with
    | none => none
    | some val => some (NumCand.mk (scoreCand line pt.1 pt.2 val) (String.mk pt.2) val)
  sortByScoreDesc (collapseByVal cands)

/-- The scoring fallback of `pick_best_count` (app.py lines 149-155). -/
def scoringFallback (parts : List String) (line : List Char) : Except String (Option Nat × String) :=
  match candidate_numbers_from_parts parts line with
  | [] => .ok (none, "no numeric candidate found")
  | c :: _ =>
    .ok (some c.val,
      "picked by scoring (best candidate raw=" ++ c.raw ++ ", score=" ++ toString c.score ++ ")")

/-- The `for j in range(idx+1, min(len(parts), idx+5))` loop of
`pick_best_count` (app.py lines 143-147): first field in the window with a
numeric token.  The `int(...)` there is not guarded by a `try`, so a failing
conversion would raise — modelled by `Except.error`. -/
def windowSearch (parts : List String) : Nat → Nat → Except String (Option (Nat × String))
  | _, 0 => .ok none
  | j, fuel + 1 =>
    match parts.get? j with
    | none => .ok none
    | some p =>
      match numSearch p.data with
      | some tok =>
        match parseNatDigits (stripCommas tok) with
        | some v =>
          .ok (some (v, "picked from parts[" ++ toString j ++ "] (first numeric after table name)"))
        | none => .error ("ValueError: invalid literal for int() with base 10")
      | none => windowSearch parts (j + 1) fuel

/-- `pick_best_count` (app.py lines 122-155).  The unguarded
`int(num_m.group(1).replace(',', ''))` calls are modelled with
`Except.error`; `parse_never_raises` below shows the error branch is
unreachable because every `_num_re` match strips to a non-empty digit
string. -/
def pick_best_count (parts : List String) (table_name : Option String) (line : List Char) :
    Except String (Option Nat × String) :=
  match table_name with
  | none => scoringFallback parts line
  | some tn =>
    match parts.findIdx? (fun p => p != "" && containsSub (pyLower tn).data (pyLower p).data) with
    | none => scoringFallback parts line
    | some idx =>
      let candIdx := idx + 2
      match (parts.get? candIdx).bind (fun p => numSearch p.data) with
      | some tok =>
        match parseNatDigits (stripCommas tok) with
        | some v =>
          .ok (some v, "picked from parts[" ++ toString candIdx ++ "] (near table name)")
        | none => .error ("ValueError: invalid literal for int() with base 10")
      | none =>
        match windowSearch parts (idx + 1) 4 with
        | .ok (some (v, reason)) => .ok (some v, reason)
        | .ok none => scoringFallback parts line
        | .error e => .error e

/-- One parsed report line (the row dict appended at app.py lines 170-175). -/
structure Row where
  raw_line : String
  TableName : String
  Count : Option Nat
  parse_reason : String
deriving Repr, DecidableEq

/-- One row of the parsed data frame after the `key` column is added
(app.py line 180). -/
structure Entry where
  raw_line : String
  TableName : String
  Count : Option Nat
  parse_reason : String
  key : String
deriving Repr, DecidableEq

/-- `df["key"] = df["TableName"].str.strip().str.lower()` (app.py line 180). -/
def addKey (r : Row) : Entry :=
  { raw_line := r.raw_line, TableName := r.TableName, Count := r.Count,
    parse_reason := r.parse_reason, key := pyLower (pyStrip r.TableName) }

/-- Process one line of the report (app.py lines 160-175): blank lines are
skipped; lines with neither a `TABLE` marker nor a `|` nor a numeric token
are skipped; every other line yields a row. -/
def processLine (line : String) : Except String (Option Row) :=
  if pyStrip line = "" then .ok none
  else if !containsSub ['T', 'A', 'B', 'L', 'E'] (pyUpper line).data && !line.data.contains '|' &&
      (numSearch line.data).isNone then .ok none
  else
    let parts := extract_tokens_from_line line
    let tname := find_table_name parts line.data
    match pick_best_count parts tname line.data with
    | .error e => .error e
    | .ok (count, reason) =>
      .ok (some { raw_line := line, TableName := tname.getD "", Count := count,
                  parse_reason := reason })

/-- The line loop of `parse_text_to_df`: rows in line order, the first
raising line aborting the whole parse (no exception is ever raised;
see `parse_never_raises`). -/
def parseRows : List String → Except String (List Row)
  | [] => .ok []
  | l :: rest =>
    match processLine l with
    | .error e => .error e
    | .ok r? =>
      match parseRows rest with
      | .error e => .error e
      | .ok rs => .ok (r?.toList ++ rs)

/-- `df.drop_duplicates(subset="key", keep="first")` (app.py line 184):
first occurrence of each key wins. -/
def dropDupFirst : List Entry → List String → List Entry
  | [], _ => []
  | e :: rest, seen =>
    if seen.contains e.key then dropDupFirst rest seen
    else e :: dropDupFirst rest (e.key :: seen)

/-- The dtype `pd.DataFrame(rows)` gives the `Count` column (decided by the
pre-filter, pre-dedup row list): `objectCol` when every count is `None`
(the column then holds real `None`s), `intCol` when every count is an
integer, `floatCol` when mixed (missing counts stored as `NaN`). -/
inductive CountCol where
  | objectCol
  | intCol
  | floatCol
deriving Repr, DecidableEq

def countColOf (rows : List Row) : CountCol :=
  if rows.all fun r => r.Count.isNone then .objectCol
  else if rows.all fun r => r.Count.isSome then .intCol
  else .floatCol

/-- The parsed data frame.  `hasCols = false` models `pd.DataFrame([])`, the
column-less frame returned when no line parsed (app.py lines 176-178); a
frame that still has its columns but lost every row to the name filter has
`hasCols = true`.  `countCol` is the dtype of the `Count` column
(`countColOf` of the pre-filter rows); subsetting by the name filter and
the dedup does not change a pandas dtype. -/
structure ParseDF where
  entries : List Entry
  hasCols : Bool
  countCol : CountCol
deriving Repr, DecidableEq

/-- The keyed-and-filtered rows of `parse_text_to_df` before deduplication
(app.py lines 180-182), exposed so that the first-occurrence-wins policy can
be stated. -/
def filteredRows (text : String) : Except String (List Entry) :=
  match parseRows (pySplitlines text) with
  | .error e => .error e
  | .ok rows => .ok ((rows.map addKey).filter fun e => pyStrip e.TableName != "")

/-- `parse_text_to_df` (app.py lines 158-185). -/
def parse_text_to_df (text : String) : Except String ParseDF :=
  match parseRows (pySplitlines text) with
  | .error e => .error e
  | .ok rows =>
    if rows.isEmpty then .ok { entries := [], hasCols := false, countCol := .objectCol }
    else
      .ok { entries :=
              dropDupFirst ((rows.map addKey).filter fun e => pyStrip e.TableName != "") [],
            hasCols := true,
            countCol := countColOf rows }

/-- The `merged` data frame of `compare_dfs` after every derived column has
been assigned (app.py lines 191-218). -/
structure MergedRow where
  key : String
  TableName_Before : Option String
  Before_Count : Option Nat
  TableName_After : Option String
  After_Count : Option Nat
  TableName : String
  Present_Before : Bool
  Present_After : Bool
  Created : String
  Deleted : String
  Difference : Option Int
  Status : String
deriving Repr, DecidableEq

def keysOf (l : List Entry) : List String :=
  l.map Entry.key

/-- Key order of `pd.merge(a, b, on="key", how="outer")` (default
`sort=False`) on unique-key frames: the left frame's keys in order, then the
unmatched right keys in order (pandas factorizes the keys jointly, left
first; a pandas version that lexicographically sorts outer-join keys differs
only in row order). -/
def mergeKeys (b a : List Entry) : List String :=
  keysOf b ++ (keysOf a).filter fun k => !(keysOf b).contains k

def lookupEntry (l : List Entry) (k : String) : Option Entry :=
  l.find? fun e => e.key == k

/-- A value of a merged count column as the row-wise `apply` lambdas see it:
Python `None` (object column), float `NaN`, or a number. -/
inductive CVal where
  | pyNone
  | nan
  | num (n : Nat)
deriving Repr, DecidableEq

/-- Python's `v is not None`: `NaN` passes this test. -/
def CVal.isNotNone : CVal → Bool
  | .pyNone => false
  | _ => true

def CVal.isNaN : CVal → Bool
  | .nan => true
  | _ => false

/-- The merged count value for key `k` after app.py lines 191-196: a key
missing from the frame is `NaN`-filled by the merge (the `int64` column is
then upcast to `float64`) unless the column is `object`, where
`where(notna, None)` turns the fill into `None`; a present key with a
`None` count was stored as `NaN` at parse time in a numeric column and as
`None` in an `object` column (the `intCol` sub-case cannot carry a `None`
count in a frame `parse_text_to_df` produced). -/
def countVal (dtype : CountCol) (entry? : Option Entry) : CVal :=
  match entry? with
  | none =>
    match dtype with
    | .objectCol => .pyNone
    | _ => .nan
  | some e =>
    match e.Count with
    | some n => .num n
    | none =>
      match dtype with
      | .objectCol => .pyNone
      | _ => .nan

/-- Does `diff_val` (app.py lines 204-207) raise on this pair of merged
count values?  Its guard is `is not None` on both sides — which `NaN`
passes — and `int(NaN)` then raises
`ValueError: cannot convert float NaN to integer`. -/
def diffRaises (bv av : CVal) : Bool :=
  bv.isNotNone && av.isNotNone && (bv.isNaN || av.isNaN)

/-- One merged row (app.py lines 193-218) on the path where the
`Difference` apply raises nowhere (`compare_dfs` checks `diffRaises`
first): the display name prefers the after side, the presence flags are
`notna` of the merged count columns, the difference exists only when both
counts do, and `status_row` classifies in the order written in the source.
On that path a missing count is equivalently `None` or `NaN`: `notna`
rejects both, and the `is not None` conjunctions of `diff_val` and
`status_row` only see a `NaN` opposite a `None` (any `NaN` opposite a
non-`None` raised already), where the conjunction is false just as for
`None` — so the row's fields depend only on `Option`-level count
presence. -/
def mkMergedRow (b a : List Entry) (k : String) : MergedRow :=
  let be := lookupEntry b k
  let ae := lookupEntry a k
  let bc := be.bind Entry.Count
  let ac := ae.bind Entry.Count
  let tb := be.map Entry.TableName
  let ta := ae.map Entry.TableName
  let name := (ta.orElse fun _ => tb).getD k
  let pb := bc.isSome
  let pa := ac.isSome
  let created := if pa && !pb then "YES" else ""
  let deleted := if pb && !pa then "YES" else ""
  let diff : Option Int :=
    match bc, ac with
    | some x, some y => some ((y : Int) - (x : Int))
    | _, _ => none
  let status :=
    if created = "YES" then "NEW TABLE"
    else if deleted = "YES" then "DELETED TABLE"
    else
      match bc, ac with
      | some x, some y => if x = y then "MATCH" else "MISMATCH"
      | _, _ => if pb && pa then "PRESENT (no counts)" else "UNKNOWN"
  { key := k, TableName_Before := tb, Before_Count := bc, TableName_After := ta,
    After_Count := ac, TableName := name, Present_Before := pb, Present_After := pa,
    Created := created, Deleted := deleted, Difference := diff, Status := status }

def mergedRows (b a : List Entry) : List MergedRow :=
  (mergeKeys b a).map (mkMergedRow b a)

/-- One row of the result frame `out` (app.py line 220). -/
structure CompRow where
  TableName : String
  Before_Count : Option Nat
  After_Count : Option Nat
  Difference : Option Int
  Created : String
  Deleted : String
  Status : String
  key : String
deriving Repr, DecidableEq

def toCompRow (m : MergedRow) : CompRow :=
  { TableName := m.TableName, Before_Count := m.Before_Count, After_Count := m.After_Count,
    Difference := m.Difference, Created := m.Created, Deleted := m.Deleted,
    Status := m.Status, key := m.key }

/-- `compare_dfs` (app.py lines 188-221).  Selecting the
`key/TableName/Count` columns from a column-less frame raises `KeyError`
(lines 189-190), so a before or after file from which nothing parsed makes
`compare_dfs` raise; when both frames have columns but the merge is empty
the row-wise `apply` assignments raise as well (modelled as the pandas
`ValueError` on assigning a frame-valued empty `apply` result).  On a
non-empty merge, the `Created`/`Deleted` applies (lines 201-202) cannot
raise, but the `Difference` apply (line 208) raises
`ValueError: cannot convert float NaN to integer` at the first row whose
merged count values satisfy `diffRaises` — i.e. a `NaN` count (numeric
column) opposite a non-`None` count: every NEW/DELETED row against a
numeric-dtype opposite column crashes the comparison. -/
def compare_dfs (dfb dfa : ParseDF) : Except String (List CompRow) :=
  if !dfb.hasCols || !dfa.hasCols then
    .error ("KeyError: columns key, TableName, Count not in index")
  else if (mergeKeys dfb.entries dfa.entries).isEmpty then
    .error ("ValueError: cannot set a DataFrame with multiple columns to a single column")
  else if (mergeKeys dfb.entries dfa.entries).any (fun k =>
      diffRaises (countVal dfb.countCol (lookupEntry dfb.entries k))
        (countVal dfa.countCol (lookupEntry dfa.entries k))) then
    .error ("ValueError: cannot convert float NaN to integer")
  else
    .ok ((mergedRows dfb.entries dfa.entries).map toCompRow)

/-- Strict lexicographic order on character lists (by code point), i.e.
string comparison as Python's `<` performs it. -/
def strLtb : List Char → List Char → Bool
  | [], [] => false
  | [], _ :: _ => true
  | _ :: _, [] => false
  | c :: cs, d :: ds => if c = d then strLtb cs ds else decide (c < d)

def strLeb (a b : List Char) : Bool :=
  strLtb a b || a == b

/-- The comparison ordering the spec claims for `compare`'s output: by
status label (alphabetically, by code point), then by display name. -/
def rowLE (r s : CompRow) : Bool :=
  strLtb r.Status.data s.Status.data ||
    (r.Status == s.Status && strLeb r.TableName.data s.TableName.data)

/-- A row list sorted by status then name: every adjacent pair is ordered
(adjacent comparisons suffice because `rowLE` is transitive and total). -/
def sortedByB : List CompRow → Bool
  | [] => true
  | [_] => true
  | r :: s :: rest => rowLE r s && sortedByB (s :: rest)

def sortedByStatusThenName (l : List CompRow) : Prop :=
  sortedByB l = true

instance (l : List CompRow) : Decidable (sortedByStatusThenName l) :=
  inferInstanceAs (Decidable (sortedByB l = true))

/-! ### Concrete inventories and rows used to evaluate the code on the
claims' scenarios (the parsed frames below are checked against
`parse_text_to_df` where a claim speaks about report text). -/

/-- Parse of the report line `TABLE | Y | desc | N/A |`: key `y` present,
count unparseable; the one-row all-`None` count column has dtype `object`,
so its missing count is a real `None`. -/
def dfYnone : ParseDF :=
  ⟨[⟨"TABLE | Y | desc | N/A |", "Y", none, "no numeric candidate found", "y"⟩],
   true, .objectCol⟩

/-- Parse of the report line `TABLE | Y | desc | 5 |`. -/
def dfY5 : ParseDF :=
  ⟨[⟨"TABLE | Y | desc | 5 |", "Y", some 5,
    "picked from parts[3] (near table name)", "y"⟩], true, .intCol⟩

/-- Parse of the report line `TABLE | ORD | Orders | 42 |`. -/
def dfOrd42 : ParseDF :=
  ⟨[⟨"TABLE | ORD | Orders | 42 |", "ORD", some 42,
    "picked from parts[3] (near table name)", "ord"⟩], true, .intCol⟩

/-- A before inventory with keys `aa`, `bb`, `cc`, `dd`, counts present for
`aa` and `cc` only: the mixed column has dtype `float64`, so the missing
counts are `NaN`. -/
def dfBeforeMixed4 : ParseDF :=
  ⟨[⟨"", "aa", some 1, "", "aa"⟩, ⟨"", "bb", none, "", "bb"⟩,
    ⟨"", "cc", some 1, "", "cc"⟩, ⟨"", "dd", none, "", "dd"⟩], true, .floatCol⟩

/-- An after inventory holding only `aa`, count unparseable: the all-`None`
column has dtype `object`, so every after-side merged count is a real
`None` and `diff_val` raises nowhere against it. -/
def dfAfterNoCounts : ParseDF :=
  ⟨[⟨"", "aa", none, "", "aa"⟩], true, .objectCol⟩

/-- The comparison rows for `dfBeforeMixed4` against `dfAfterNoCounts`. -/
def rowsMixed4 : List CompRow :=
  [⟨"aa", some 1, none, none, "", "YES", "DELETED TABLE", "aa"⟩,
   ⟨"bb", none, none, none, "", "", "UNKNOWN", "bb"⟩,
   ⟨"cc", some 1, none, none, "", "YES", "DELETED TABLE", "cc"⟩,
   ⟨"dd", none, none, none, "", "", "UNKNOWN", "dd"⟩]

/-- A report repeating table `TT` three times with different counts. -/
def textTT : String :=
  "TABLE | TT | x | 1 |\nTABLE | TT | x | 2 |\nTABLE | TT | x | 3 |"

def entryTT1 : Entry :=
  ⟨"TABLE | TT | x | 1 |", "TT", some 1, "picked from parts[3] (near table name)", "tt"⟩

def entryTT2 : Entry :=
  ⟨"TABLE | TT | x | 2 |", "TT", some 2, "picked from parts[3] (near table name)", "tt"⟩

def entryTT3 : Entry :=
  ⟨"TABLE | TT | x | 3 |", "TT", some 3, "picked from parts[3] (near table name)", "tt"⟩

/-- Parse of `textTT`: only the first occurrence survives. -/
def dfTT : ParseDF := ⟨[entryTT1], true, .intCol⟩

/-- The pre-deduplication rows of `textTT`. -/
def flTT : List Entry := [entryTT1, entryTT2, entryTT3]

def textOrdersMixed : String := "TABLE | OrDeRs | x | 1 |"

def entryOrdersMixed : Entry :=
  ⟨"TABLE | OrDeRs | x | 1 |", "OrDeRs", some 1,
   "picked from parts[3] (near table name)", "orders"⟩

def dfOrdersMixed : ParseDF := ⟨[entryOrdersMixed], true, .intCol⟩

def textOrdersUpper : String := "TABLE |   ORDERS   | x | 2 |"

def dfOrdersUpper : ParseDF :=
  ⟨[⟨"TABLE |   ORDERS   | x | 2 |", "ORDERS", some 2,
    "picked from parts[3] (near table name)", "orders"⟩], true, .intCol⟩

def dfAA1 : ParseDF := ⟨[⟨"", "AA", some 1, "", "aa"⟩], true, .intCol⟩

def dfAA3 : ParseDF := ⟨[⟨"", "AA", some 3, "", "aa"⟩], true, .intCol⟩

/-- The single comparison row of `dfAA1` against `dfAA3` (matched key, both
counts integers: the comparison is crash-free). -/
def rowAA13 : CompRow := ⟨"AA", some 1, some 3, some 2, "", "", "MISMATCH", "aa"⟩

/-- The single comparison row of `dfYnone` against `dfY5` (the before-side
`None` count fails `is not None`, so `diff_val` raises nowhere). -/
def rowYnew : CompRow := ⟨"Y", none, some 5, none, "YES", "", "NEW TABLE", "y"⟩

/-! ### Shape of `_num_re` matches

Every token matched by the integer regex strips (of commas) to a non-empty
digit string, so Python's `int` cannot fail on it.  This is what makes the
unguarded `int(...)` calls in `pick_best_count` safe. -/

theorem digitRun_le_length (cs : List Char) : digitRun cs ≤ cs.length := by
  induction cs with
  | nil => simp [digitRun]
  | cons c rest ih =>
    simp only [digitRun, List.length_cons]
    split <;> omega

theorem all_isDigit_take (cs : List Char) (k : Nat) (h : k ≤ digitRun cs) :
    ((cs.take k).all Char.isDigit) = true := by
  induction cs generalizing k with
  | nil => simp
  | cons c rest ih =>
    cases k with
    | zero => simp
    | succ j =>
      simp only [digitRun] at h
      split at h
      · next hd =>
        simp only [List.take_succ_cons, List.all_cons, hd, Bool.true_and]
        exact ih j (by omega)
      · omega

theorem takeGroups_all (g : Nat) (cs : List Char) (h : g ≤ commaGroups cs) :
    ((takeGroups g cs).all fun c => c.isDigit || c == ',') = true := by
  induction g generalizing cs with
  | zero => simp [takeGroups]
  | succ g ih =>
    rw [commaGroups.eq_def] at h
    split at h
    · next a b c rest =>
      split at h
      · next hdig =>
        simp only [Bool.and_eq_true] at hdig
        obtain ⟨⟨ha, hb⟩, hc⟩ := hdig
        simp only [takeGroups, List.all_cons, ha, hb, hc, beq_self_eq_true, Bool.or_true,
          Bool.true_or, Bool.true_and]
        exact ih rest (by omega)
      · omega
    · omega

theorem tryGroups_all (g : Nat) (after gtok : List Char) (h : tryGroups after g = some gtok)
    (hle : g ≤ commaGroups after) : (gtok.all fun c => c.isDigit || c == ',') = true := by
  induction g with
  | zero =>
    simp only [tryGroups] at h
    split at h
    · cases h; simp
    · cases h
  | succ g ih =>
    simp only [tryGroups] at h
    split at h
    · cases h; exact takeGroups_all (g + 1) after hle
    · exact ih h (by omega)

theorem stripCommas_all_digit (cs : List Char)
    (h : (cs.all fun c => c.isDigit || c == ',') = true) :
    ((stripCommas cs).all Char.isDigit) = true := by
  induction cs with
  | nil => simp [stripCommas]
  | cons c rest ih =>
    simp only [List.all_cons, Bool.and_eq_true] at h
    simp only [stripCommas, List.filter_cons]
    rcases h with ⟨h1, h2⟩
    split
    · next hne =>
      simp only [List.all_cons, Bool.and_eq_true]
      refine ⟨?_, ih h2⟩
      rcases Bool.or_eq_true_iff.mp h1 with hd | hc
      · exact hd
      · exfalso
        simp only [bne_iff_ne, ne_eq] at hne
        exact hne (by simpa using hc)
    · exact ih h2

theorem stripCommas_of_all_digit (cs : List Char) (h : (cs.all Char.isDigit) = true) :
    stripCommas cs = cs := by
  induction cs with
  | nil => rfl
  | cons c rest ih =>
    simp only [List.all_cons, Bool.and_eq_true] at h
    simp only [stripCommas, List.filter_cons]
    have : (c != ',') = true := by
      simp only [bne_iff_ne, ne_eq]
      intro hc
      subst hc
      simp at h
    rw [if_pos this]
    simp only [stripCommas] at ih
    rw [ih h.2]

theorem take_ne_nil_of_digits (cs : List Char) (k : Nat) (hk : 1 ≤ k) (h : k ≤ digitRun cs) :
    cs.take k ≠ [] := by
  have h1 : k ≤ cs.length := le_trans h (digitRun_le_length cs)
  intro hnil
  have := congrArg List.length hnil
  simp only [List.length_take, List.length_nil] at this
  omega

/-- The key shape fact for alternative 1 of `_num_re`. -/
theorem tryAlt1K_shape (cs : List Char) (k0 : Nat) (tok : List Char)
    (h : tryAlt1K cs k0 = some tok) (hle : k0 ≤ digitRun cs) :
    ((stripCommas tok).all Char.isDigit) = true ∧ stripCommas tok ≠ [] := by
  induction k0 with
  | zero => simp [tryAlt1K] at h
  | succ k ih =>
    simp only [tryAlt1K] at h
    split at h
    · next gtok hg =>
      cases h
      have hdigs : ((cs.take (k + 1)).all Char.isDigit) = true :=
        all_isDigit_take cs (k + 1) hle
      have hgall : ((gtok.all fun c => c.isDigit || c == ',') = true) :=
        tryGroups_all _ _ _ hg (Nat.le_refl _)
      have hsplit : stripCommas (cs.take (k + 1) ++ gtok)
          = cs.take (k + 1) ++ stripCommas gtok := by
        simp only [stripCommas, List.filter_append]
        rw [show List.filter (fun c => c != ',') (cs.take (k + 1)) = cs.take (k + 1) from
          stripCommas_of_all_digit _ hdigs]
      constructor
      · rw [hsplit, List.all_append]
        exact Bool.and_eq_true_iff.mpr ⟨hdigs, stripCommas_all_digit _ hgall⟩
      · rw [hsplit]
        intro hnil
        exact take_ne_nil_of_digits cs (k + 1) (by omega) hle
          (List.append_eq_nil.mp hnil).1
    · exact ih h (by omega)

theorem tryAlt2_shape (cs : List Char) (k0 : Nat) (tok : List Char)
    (h : tryAlt2 cs k0 = some tok) (hle : k0 ≤ digitRun cs) :
    ((stripCommas tok).all Char.isDigit) = true ∧ stripCommas tok ≠ [] := by
  induction k0 with
  | zero => simp [tryAlt2] at h
  | succ k ih =>
    simp only [tryAlt2] at h
    split at h
    · cases h
      have hdigs : ((cs.take (k + 1)).all Char.isDigit) = true :=
        all_isDigit_take cs (k + 1) hle
      rw [stripCommas_of_all_digit _ hdigs]
      exact ⟨hdigs, take_ne_nil_of_digits cs (k + 1) (by omega) hle⟩
    · exact ih h (by omega)

theorem numMatchTok_shape (cs tok : List Char) (h : numMatchTok cs = some tok) :
    ((stripCommas tok).all Char.isDigit) = true ∧ stripCommas tok ≠ [] := by
  simp only [numMatchTok] at h
  split at h
  · cases h
  · split at h
    · next tok' h1 =>
      cases h
      exact tryAlt1K_shape cs _ _ h1 (Nat.min_le_right 3 (digitRun cs))
    · exact tryAlt2_shape cs _ _ h (Nat.le_refl _)

theorem parseNat_of_shape (tok : List Char)
    (h1 : ((stripCommas tok).all Char.isDigit) = true) (h2 : stripCommas tok ≠ []) :
    (parseNatDigits (stripCommas tok)).isSome = true := by
  simp only [parseNatDigits]
  rw [if_neg (by simpa using h2), if_pos h1]
  rfl

theorem numSearch_parseable (cs tok : List Char) (h : numSearch cs = some tok) :
    (parseNatDigits (stripCommas tok)).isSome = true := by
  simp only [numSearch] at h
  induction cs with
  | nil => simp [numSearchAux] at h
  | cons c rest ih =>
    simp only [numSearchAux] at h
    split at h
    · next tok' hm =>
      cases h
      obtain ⟨s1, s2⟩ := numMatchTok_shape _ _ hm
      exact parseNat_of_shape _ s1 s2
    · exact ih h

/-! ### Totality of the parser -/

theorem windowSearch_ok (parts : List String) (j fuel : Nat) :
    ∃ v, windowSearch parts j fuel = .ok v := by
  induction fuel generalizing j with
  | zero => exact ⟨none, rfl⟩
  | succ fuel ih =>
    simp only [windowSearch, List.get?_eq_getElem?]
    cases hp : parts[j]? with
    | none => exact ⟨none, by simp [hp]⟩
    | some p =>
      cases hn : numSearch p.data with
      | none =>
        simp only [hp, hn]
        exact ih (j + 1)
      | some tok =>
        have hs := numSearch_parseable _ _ hn
        cases hpn : parseNatDigits (stripCommas tok) with
        | none => rw [hpn] at hs; cases hs
        | some v =>
          simp only [hp, hn, hpn]
          exact ⟨_, rfl⟩

theorem pick_best_count_ok (parts : List String) (table_name : Option String)
    (line : List Char) : ∃ v, pick_best_count parts table_name line = .ok v := by
  have hscore : ∃ v, scoringFallback parts line = .ok v := by
    simp only [scoringFallback]
    cases candidate_numbers_from_parts parts line with
    | nil => exact ⟨_, rfl⟩
    | cons c rest => exact ⟨_, rfl⟩
  cases table_name with
  | none => exact hscore
  | some tn =>
    simp only [pick_best_count, List.get?_eq_getElem?]
    cases hidx : parts.findIdx? fun p => p != "" && containsSub (pyLower tn).data (pyLower p).data with
    | none =>
      simp only [hidx]
      exact hscore
    | some idx =>
      cases hb : parts[idx + 2]?.bind fun p => numSearch p.data with
      | some tok =>
        obtain ⟨p, _, hn⟩ := Option.bind_eq_some.mp hb
        have hs := numSearch_parseable _ _ hn
        cases hpn : parseNatDigits (stripCommas tok) with
        | none => rw [hpn] at hs; cases hs
        | some v =>
          simp only [hidx, hb, hpn]
          exact ⟨_, rfl⟩
      | none =>
        obtain ⟨w, hw⟩ := windowSearch_ok parts (idx + 1) 4
        simp only [hidx, hb, hw]
        cases w with
        | some vr =>
          exact ⟨_, rfl⟩
        | none => exact hscore

theorem processLine_ok (line : String) : ∃ r, processLine line = .ok r := by
  simp only [processLine]
  split
  · exact ⟨none, rfl⟩
  · split
    · exact ⟨none, rfl⟩
    · obtain ⟨v, hv⟩ := pick_best_count_ok (extract_tokens_from_line line)
        (find_table_name (extract_tokens_from_line line) line.data) line.data
      rw [hv]
      exact ⟨_, rfl⟩

theorem parseRows_ok (ls : List String) : ∃ rs, parseRows ls = .ok rs := by
  induction ls with
  | nil => exact ⟨[], rfl⟩
  | cons l rest ih =>
    simp only [parseRows]
    obtain ⟨r, hr⟩ := processLine_ok l
    obtain ⟨rs, hrs⟩ := ih
    rw [hr, hrs]
    exact ⟨_, rfl⟩

/-! ### Deduplication keeps the first occurrence of each key -/

theorem mem_ddf {e : Entry} : ∀ {l : List Entry} {seen : List String},
    e ∈ dropDupFirst l seen → e ∈ l ∧ e.key ∉ seen
  | [], _, h => by simp [dropDupFirst] at h
  | a :: l, seen, h => by
    simp only [dropDupFirst] at h
    split at h
    · next hc =>
      obtain ⟨h1, h2⟩ := mem_ddf h
      exact ⟨List.mem_cons_of_mem _ h1, h2⟩
    · next hc =>
      rcases List.mem_cons.mp h with rfl | h'
      · refine ⟨List.mem_cons_self _ _, fun hmem => ?_⟩
        exact hc (by simpa using hmem)
      · obtain ⟨h1, h2⟩ := mem_ddf h'
        have h3 : e.key ∉ seen := fun hx => h2 (List.mem_cons_of_mem _ hx)
        exact ⟨List.mem_cons_of_mem _ h1, h3⟩

theorem ddf_nodup : ∀ (l : List Entry) (seen : List String),
    (keysOf (dropDupFirst l seen)).Nodup
  | [], _ => by simp [dropDupFirst, keysOf]
  | a :: l, seen => by
    simp only [dropDupFirst]
    split
    · exact ddf_nodup l seen
    · simp only [keysOf, List.map_cons, List.nodup_cons]
      refine ⟨fun hmem => ?_, ddf_nodup l (a.key :: seen)⟩
      obtain ⟨e, he, hkey⟩ := List.mem_map.mp hmem
      obtain ⟨_, hnot⟩ := mem_ddf he
      exact hnot (hkey ▸ List.mem_cons_self _ _)

theorem ddf_find : ∀ (l : List Entry) (seen : List String) (e : Entry),
    e ∈ dropDupFirst l seen → l.find? (fun r => r.key == e.key) = some e
  | [], _, e, h => by simp [dropDupFirst] at h
  | a :: l, seen, e, h => by
    simp only [dropDupFirst] at h
    split at h
    · next hc =>
      obtain ⟨_, hnot⟩ := mem_ddf h
      have hne : (a.key == e.key) = false := by
        rw [beq_eq_false_iff_ne]
        intro heq
        rw [← heq] at hnot
        exact hnot (by simpa using hc)
      simp only [List.find?, hne]
      exact ddf_find l seen e h
    · rcases List.mem_cons.mp h with rfl | h'
      · simp only [List.find?, beq_self_eq_true]
      · obtain ⟨_, hnot⟩ := mem_ddf h'
        have hne : (a.key == e.key) = false := by
          rw [beq_eq_false_iff_ne]
          intro heq
          exact hnot (heq ▸ List.mem_cons_self _ _)
        simp only [List.find?, hne]
        exact ddf_find l (a.key :: seen) e h'

theorem ddf_covers : ∀ (l : List Entry) (seen : List String) (r : Entry), r ∈ l →
    r.key ∈ seen ∨ ∃ e, e ∈ dropDupFirst l seen ∧ e.key = r.key
  | [], _, r, h => by simp at h
  | a :: l, seen, r, h => by
    simp only [dropDupFirst]
    rcases List.mem_cons.mp h with rfl | h'
    · split
      · next hc =>
        exact Or.inl (by simpa using hc)
      · exact Or.inr ⟨r, List.mem_cons_self _ _, rfl⟩
    · split
      · next hc =>
        exact ddf_covers l seen r h'
      · rcases ddf_covers l (a.key :: seen) r h' with hseen | ⟨e, he, hk⟩
        · rcases List.mem_cons.mp hseen with heq | hseen'
          · exact Or.inr ⟨a, List.mem_cons_self _ _, heq.symm⟩
          · exact Or.inl hseen'
        · exact Or.inr ⟨e, List.mem_cons_of_mem _ he, hk⟩

/-- Relate `parse_text_to_df` to its pre-deduplication row list. -/
theorem parse_entries (text : String) (df : ParseDF)
    (h : parse_text_to_df text = .ok df) :
    ∃ fl, filteredRows text = .ok fl ∧ df.entries = dropDupFirst fl [] := by
  simp only [parse_text_to_df] at h
  cases hp : parseRows (pySplitlines text) with
  | error e => simp only [hp] at h; cases h
  | ok rows =>
    simp only [hp] at h
    simp only [filteredRows, hp]
    by_cases hr : rows.isEmpty = true
    · rw [if_pos hr] at h
      cases h
      have : rows = [] := by simpa [List.isEmpty_iff] using hr
      subst this
      exact ⟨[], by simp, rfl⟩
    · rw [if_neg hr] at h
      cases h
      exact ⟨_, rfl, rfl⟩

/-- A successful `compare_dfs` returns exactly the projected merged rows. -/
theorem compare_ok_rows {dfb dfa : ParseDF} {rows : List CompRow}
    (h : compare_dfs dfb dfa = .ok rows) :
    rows = (mergedRows dfb.entries dfa.entries).map toCompRow := by
  simp only [compare_dfs] at h
  split at h
  · cases h
  · split at h
    · cases h
    · split at h
      · cases h
      · injection h with h2
        exact h2.symm

/-! ### The claims -/

/-- C7: `parse_text_to_df` never raises, whatever the input text: every
line either contributes a row or is skipped, every unguarded `int()` call
receives a numeric-regex match (which always parses), and a text in which
no line matches yields the empty inventory `⟨[], false⟩` rather than an
error (that value is exactly what the `df.empty` early return produces). -/
theorem C7_parse_never_raises (text : String) :
    ∃ df, parse_text_to_df text = Except.ok df := by
  simp only [parse_text_to_df]
  obtain ⟨rows, hrows⟩ := parseRows_ok (pySplitlines text)
  simp only [hrows]
  by_cases hr : rows.isEmpty = true
  · rw [if_pos hr]
    exact ⟨_, rfl⟩
  · rw [if_neg hr]
    exact ⟨_, rfl⟩

/-- C6: parsing deduplicates on the normalized key, first occurrence
winning: the parsed inventory has pairwise distinct keys, each entry is
literally the first row of the pre-dedup (keyed, name-filtered) row list
carrying its key — so its name and count are the first occurrence's — and
every key of the pre-dedup list is still represented. -/
theorem C6_dedup_first_wins (text : String) (df : ParseDF) (fl : List Entry)
    (hdf : parse_text_to_df text = .ok df) (hfl : filteredRows text = .ok fl) :
    (keysOf df.entries).Nodup ∧
      (∀ e ∈ df.entries, fl.find? (fun r => r.key == e.key) = some e) ∧
      (∀ r ∈ fl, ∃ e, e ∈ df.entries ∧ e.key = r.key) := by
  obtain ⟨fl', hfl', hent⟩ := parse_entries text df hdf
  rw [hfl] at hfl'
  injection hfl' with hfl''
  subst hfl''
  refine ⟨hent ▸ ddf_nodup fl [], fun e he => ?_, fun r hr => ?_⟩
  · exact ddf_find fl [] e (hent ▸ he)
  · rcases ddf_covers fl [] r hr with hseen | ⟨e, he, hk⟩
    · simp at hseen
    · exact ⟨e, hent ▸ he, hk⟩

/-- C8: every entry of a parsed inventory carries as join key its display
name stripped of surrounding whitespace and lower-cased (app.py line 180),
which is what makes the before/after join case- and
whitespace-insensitive. -/
theorem C8_key_is_normalized_name (text : String) (df : ParseDF)
    (h : parse_text_to_df text = .ok df) :
    ∀ e ∈ df.entries, e.key = pyLower (pyStrip e.TableName) := by
  intro e he
  obtain ⟨fl, hfl, hent⟩ := parse_entries text df h
  rw [hent] at he
  obtain ⟨hfl', _⟩ := mem_ddf he
  simp only [filteredRows] at hfl
  cases hp : parseRows (pySplitlines text) with
  | error e2 => simp only [hp] at hfl; cases hfl
  | ok rows =>
    simp only [hp] at hfl
    injection hfl with hfl2
    subst hfl2
    obtain ⟨he2, _⟩ := List.mem_filter.mp hfl'
    obtain ⟨r, _, rfl⟩ := List.mem_map.mp he2
    rfl

/-- C5: the difference column equals `After_Count - Before_Count` exactly
when both counts are present — equivalently when the status is
`MATCH`/`MISMATCH` (the source's rendering of the spec's MATCH/CHANGED) —
and is absent whenever either count is absent. -/
theorem C5_difference_correct (dfb dfa : ParseDF) (rows : List CompRow)
    (h : compare_dfs dfb dfa = .ok rows) :
    ∀ r ∈ rows,
      (∀ x y, r.Before_Count = some x → r.After_Count = some y →
        r.Difference = some ((y : Int) - (x : Int)) ∧
          (r.Status = "MATCH" ∨ r.Status = "MISMATCH")) ∧
      ((r.Before_Count = none ∨ r.After_Count = none) →
        r.Difference = none ∧ r.Status ≠ "MATCH" ∧ r.Status ≠ "MISMATCH") := by
  have hrows := compare_ok_rows h
  subst hrows
  intro r hr
  obtain ⟨m, hm, rfl⟩ := List.mem_map.mp hr
  simp only [mergedRows] at hm
  obtain ⟨k, _, rfl⟩ := List.mem_map.mp hm
  rcases hbc : (lookupEntry dfb.entries k).bind Entry.Count with _ | x <;>
    rcases hac : (lookupEntry dfa.entries k).bind Entry.Count with _ | y <;>
    simp only [toCompRow, mkMergedRow, hbc, hac]
  · simp
  · simp
  · simp
  · constructor
    · intro x' y' hx hy
      injection hx with hx
      injection hy with hy
      subst hx
      subst hy
      by_cases hxy : x = y <;> simp [hxy]
    · simp

/-- C10: the `Created` and `Deleted` flags are mutually exclusive in every
comparison row: `Created` requires an after-side count without a
before-side count and `Deleted` the opposite. -/
theorem C10_created_deleted_exclusive (dfb dfa : ParseDF) (rows : List CompRow)
    (h : compare_dfs dfb dfa = .ok rows) :
    ∀ r ∈ rows, ¬(r.Created = "YES" ∧ r.Deleted = "YES") := by
  have hrows := compare_ok_rows h
  subst hrows
  intro r hr
  obtain ⟨m, hm, rfl⟩ := List.mem_map.mp hr
  simp only [mergedRows] at hm
  obtain ⟨k, _, rfl⟩ := List.mem_map.mp hm
  rcases hbc : (lookupEntry dfb.entries k).bind Entry.Count with _ | x <;>
    rcases hac : (lookupEntry dfa.entries k).bind Entry.Count with _ | y <;>
    simp [toCompRow, mkMergedRow, hbc, hac]

/-- C9 (amended): a successful `compare_dfs` emits one row per key of the
outer join in the merge's deterministic key order — the before inventory's
keys in their order followed by the after-only keys in theirs — and, for
unique-key inventories, each key exactly once; the rows are *not* reordered
by status or name afterwards (`C9_not_sorted_counterexample`). -/
theorem C9_rows_in_merge_key_order (dfb dfa : ParseDF) (rows : List CompRow)
    (h : compare_dfs dfb dfa = .ok rows)
    (hb : (keysOf dfb.entries).Nodup) (ha : (keysOf dfa.entries).Nodup) :
    rows.map CompRow.key = mergeKeys dfb.entries dfa.entries ∧
      (rows.map CompRow.key).Nodup ∧
      (∀ k, k ∈ rows.map CompRow.key ↔
        (k ∈ keysOf dfb.entries ∨ k ∈ keysOf dfa.entries)) := by
  have hrows := compare_ok_rows h
  subst hrows
  have hmap : ((mergedRows dfb.entries dfa.entries).map toCompRow).map CompRow.key
      = mergeKeys dfb.entries dfa.entries := by
    simp only [mergedRows, List.map_map]
    exact List.map_id'' (fun k => rfl) _
  have hnodup : (mergeKeys dfb.entries dfa.entries).Nodup := by
    refine List.Nodup.append hb (List.Nodup.filter _ ha) ?_
    intro k hkb hkf
    obtain ⟨_, hcontains⟩ := List.mem_filter.mp hkf
    simp only [Bool.not_eq_true'] at hcontains
    rw [List.contains, List.elem_eq_mem, decide_eq_false_iff_not] at hcontains
    exact hcontains hkb
  refine ⟨hmap, hmap ▸ hnodup, fun k => ?_⟩
  rw [hmap]
  simp only [mergeKeys, List.mem_append, List.mem_filter]
  constructor
  · rintro (hkb | ⟨hka, _⟩)
    · exact Or.inl hkb
    · exact Or.inr hka
  · rintro (hkb | hka)
    · exact Or.inl hkb
    · by_cases hkb : k ∈ keysOf dfb.entries
      · exact Or.inl hkb
      · refine Or.inr ⟨hka, ?_⟩
        simp only [Bool.not_eq_true']
        rw [List.contains, List.elem_eq_mem, decide_eq_false_iff_not]
        exact hkb

/-- C1: code evaluation at the failing input.  The before file
`TABLE | Y | desc | N/A |` parses to an inventory containing key `y` (count
absent), the after file `TABLE | Y | desc | 5 |` to key `y` with count 5,
yet the merged row's `Present_Before` is `false`: app.py line 198 computes
the presence flag as `Before_Count.notna()` — count availability — instead
of key membership, contradicting the claim (and the source's own comment
`flags for presence`). -/
theorem C1_presence_flag_eval :
    parse_text_to_df ("TABLE | Y | desc | N/A |") = .ok dfYnone ∧
    parse_text_to_df ("TABLE | Y | desc | 5 |") = .ok dfY5 ∧
    ("y" ∈ keysOf dfYnone.entries) ∧
    (mergedRows dfYnone.entries dfY5.entries).map MergedRow.Present_Before = [false] :=
  ⟨rfl, rfl, by decide, rfl⟩

/-- C2: code evaluation at the spec's Scenario E.  A key present on both
sides, with the before count unparseable and the after count valid, is
classified `NEW TABLE` (the source's NEW), not `PRESENT (no counts)` (the
source's rendering of PRESENT_NO_COUNT): because the presence flags are
count-based, the `Created` branch of `status_row` fires first and the
`PRESENT (no counts)` branch is unreachable. -/
theorem C2_no_count_classified_new_eval :
    parse_text_to_df ("TABLE | Y | desc | N/A |") = .ok dfYnone ∧
    parse_text_to_df ("TABLE | Y | desc | 5 |") = .ok dfY5 ∧
    Except.map (List.map CompRow.Status) (compare_dfs dfYnone dfY5) =
      .ok ["NEW TABLE"] ∧
    ("NEW TABLE" : String) ≠ "PRESENT (no counts)" :=
  ⟨rfl, rfl, rfl, by decide⟩

/-- C3: code evaluation producing a sixth status.  When a key is present on
both sides with both counts unparseable, `status_row` returns `UNKNOWN`,
which is none of the five statuses of the claim (in the source's labels:
NEW TABLE / DELETED TABLE / MATCH / MISMATCH / PRESENT (no counts)). -/
theorem C3_unknown_status_eval :
    parse_text_to_df ("TABLE | Y | desc | N/A |") = .ok dfYnone ∧
    Except.map (List.map CompRow.Status) (compare_dfs dfYnone dfYnone) =
      .ok ["UNKNOWN"] ∧
    ("UNKNOWN" ∉ (["NEW TABLE", "DELETED TABLE", "MATCH", "MISMATCH",
      "PRESENT (no counts)"] : List String)) :=
  ⟨rfl, rfl, by decide⟩

/-- C4: code evaluation at an empty before inventory.  A text from which
nothing parses yields the column-less frame `⟨[], false⟩`
(`pd.DataFrame([])`), and `compare_dfs` then raises a `KeyError` selecting
the `key/TableName/Count` columns (app.py line 189) instead of returning
the all-NEW row list the claim (with spec §7 and Scenario C) requires. -/
theorem C4_empty_inventory_keyerror_eval :
    parse_text_to_df ("") = .ok ⟨[], false, .objectCol⟩ ∧
    parse_text_to_df ("TABLE | ORD | Orders | 42 |") = .ok dfOrd42 ∧
    compare_dfs ⟨[], false, .objectCol⟩ dfOrd42 =
      .error ("KeyError: columns key, TableName, Count not in index") :=
  ⟨rfl, rfl, rfl⟩

/-- C9 counterexample: with before inventory `aa, bb, cc, dd` (counts only
on `aa` and `cc`) and the countless after inventory `aa`, `compare_dfs`
returns rows — no `diff_val` crash, since every after-side merged count is
a real `None` — with statuses DELETED TABLE, UNKNOWN, DELETED TABLE,
UNKNOWN in key order: rows of equal status are not contiguous, so the
output is not sorted by status then name (shown for the claim's
alphabetical-status-label ordering `rowLE`; the interleaving rules out
every ordering that distinguishes the two status labels).  `compare_dfs`
performs no sort at all: app.py returns the merged frame in join-key
order, and the keys `aa < bb < cc < dd` are already lexicographic, so the
row order is the same in pandas versions that sort outer-join keys. -/
theorem C9_not_sorted_counterexample :
    compare_dfs dfBeforeMixed4 dfAfterNoCounts = .ok rowsMixed4 ∧
    rowsMixed4.map CompRow.Status =
      ["DELETED TABLE", "UNKNOWN", "DELETED TABLE", "UNKNOWN"] ∧
    ¬ sortedByStatusThenName rowsMixed4 :=
  ⟨rfl, rfl, by decide⟩

/-- C5 witness at `dfAA1` / `dfAA3` (counts 1 and 3): difference 2, status
MISMATCH. -/
theorem C5_witness :
    compare_dfs dfAA1 dfAA3 = .ok [rowAA13] ∧
    rowAA13.Difference = some ((3 : Int) - (1 : Int)) ∧
    (rowAA13.Status = "MATCH" ∨ rowAA13.Status = "MISMATCH") :=
  ⟨rfl,
   ((C5_difference_correct dfAA1 dfAA3 [rowAA13] rfl rowAA13
      (List.mem_cons_self _ _)).1 1 3 rfl rfl).1,
   ((C5_difference_correct dfAA1 dfAA3 [rowAA13] rfl rowAA13
      (List.mem_cons_self _ _)).1 1 3 rfl rfl).2⟩

/-- C6 witness at `textTT` (table `TT` three times, counts 1, 2, 3): the
parsed inventory is the single first-occurrence entry, which is the first
matching row of the pre-dedup list. -/
theorem C6_witness :
    parse_text_to_df textTT = .ok dfTT ∧
    filteredRows textTT = .ok flTT ∧
    flTT.find? (fun r => r.key == entryTT1.key) = some entryTT1 :=
  ⟨rfl, rfl,
   (C6_dedup_first_wins textTT dfTT flTT rfl rfl).2.1 entryTT1 (List.mem_cons_self _ _)⟩

/-- C8 witness: `OrDeRs` and padded `ORDERS` both key to `orders`, and the
two inventories join into a single comparison row. -/
theorem C8_witness :
    parse_text_to_df textOrdersMixed = .ok dfOrdersMixed ∧
    parse_text_to_df textOrdersUpper = .ok dfOrdersUpper ∧
    entryOrdersMixed.key = pyLower (pyStrip entryOrdersMixed.TableName) ∧
    Except.map (List.map CompRow.key) (compare_dfs dfOrdersMixed dfOrdersUpper) =
      .ok ["orders"] :=
  ⟨rfl, rfl,
   C8_key_is_normalized_name textOrdersMixed dfOrdersMixed rfl entryOrdersMixed
     (List.mem_cons_self _ _),
   rfl⟩

/-- C9 witness at `dfBeforeMixed4` / `dfAfterNoCounts` (a crash-free
comparison): the output key sequence is the merge's key order and has no
duplicates. -/
theorem C9_witness :
    compare_dfs dfBeforeMixed4 dfAfterNoCounts = .ok rowsMixed4 ∧
    rowsMixed4.map CompRow.key = mergeKeys dfBeforeMixed4.entries dfAfterNoCounts.entries ∧
    (rowsMixed4.map CompRow.key).Nodup :=
  ⟨rfl,
   (C9_rows_in_merge_key_order dfBeforeMixed4 dfAfterNoCounts rowsMixed4 rfl
      (by decide) (by decide)).1,
   (C9_rows_in_merge_key_order dfBeforeMixed4 dfAfterNoCounts rowsMixed4 rfl
      (by decide) (by decide)).2.1⟩

/-- C10 witness at `dfYnone` / `dfY5` (a crash-free comparison: the only
missing count is a real `None` in an `object` column): the NEW TABLE row
has `Deleted` empty. -/
theorem C10_witness :
    compare_dfs dfYnone dfY5 = .ok [rowYnew] ∧
    ¬(rowYnew.Created = "YES" ∧ rowYnew.Deleted = "YES") :=
  ⟨rfl,
   C10_created_deleted_exclusive dfYnone dfY5 [rowYnew] rfl rowYnew
     (List.mem_cons_self _ _)⟩

end App
